import Mathlib

/-!
Shallow embedding of the statistics aggregator of `app.py` (routes
`dashboard` and the helper `parse_timestamp`), together with proofs of the
specification's claims about it.

Modelling conventions:
* Python `float` arithmetic is modelled by exact rationals (`ℚ`); Python's
  `round` (round-half-to-even) is `pyRound` below.
* A JSON/dict field that may be missing (`key not in record`), present but
  `null`, or present with a value is the three-state type `Field`.
  `dict.get(k)` and `dict.get(k, default)` are `Field.get?` / `Field.getD`.
* `datetime` values are `Datetime`: microseconds of wall-clock time since
  0001-01-01T00:00:00 (proleptic Gregorian, Python `toordinal() - 1` days)
  plus an optional UTC offset in microseconds (`none` = naive).
  `astimezone(timezone.utc)` applied to a naive datetime uses the host's
  local offset, modelled by the parameter `loc`.
* Code that can raise an uncaught exception (`total += None` raising
  `TypeError`) is `Except Unit`-valued.
-/

namespace EXTERES

/-- Python's builtin `round` with no `ndigits`: round half to even. -/
def pyRound (q : ℚ) : ℤ :=
  let f := Rat.floor q
  let r := q - (f : ℚ)
  if r < 1 / 2 then f
  else if 1 / 2 < r then f + 1
  else if f % 2 = 0 then f else f + 1

/-- Python's `round(x, 1)`: round half to even at one decimal place. -/
def pyRound1 (q : ℚ) : ℚ :=
  (pyRound (q * 10) : ℚ) / 10

/-- A record field: missing from the dict, present but `null`, or a value. -/
inductive Field (α : Type) where
  | absent : Field α
  | null : Field α
  | val : α → Field α
deriving DecidableEq

/-- Python `record.get(key)`: `None` for a missing or null field.
(The two cases are indistinguishable to the caller, both give `None`.) -/
def Field.get? {α : Type} : Field α → Option α
  | .absent => none
  | .null => none
  | .val a => some a

/-- Python `record.get(key, default)`: the default only replaces a *missing*
key; a present-but-null field still yields `None` (here `none`). -/
def Field.getD {α : Type} (f : Field α) (d : α) : Option α :=
  match f with
  | .absent => some d
  | .null => none
  | .val a => some a

/-- Truthiness of `task.get('is_complete')`: `True` exactly when the field
is present with value `True` (missing and `null` are falsy). -/
def Field.truthy : Field Bool → Bool
  | .val b => b
  | _ => false

/-! ### Calendar arithmetic (proleptic Gregorian, as in Python `datetime`) -/

def usecPerDay : Int := 86400000000

def isLeapYear (y : Int) : Bool :=
  y % 4 = 0 && (y % 100 != 0 || y % 400 = 0)

def daysInMonth (y m : Int) : Int :=
  if m = 2 then (if isLeapYear y then 29 else 28)
  else if m = 4 || m = 6 || m = 9 || m = 11 then 30
  else 31

def daysBeforeMonth (y m : Int) : Int :=
  (if m ≤ 1 then 0 else if m = 2 then 31 else if m = 3 then 59
   else if m = 4 then 90 else if m = 5 then 120 else if m = 6 then 151
   else if m = 7 then 181 else if m = 8 then 212 else if m = 9 then 243
   else if m = 10 then 273 else if m = 11 then 304 else 334)
  + (if 2 < m && isLeapYear y then 1 else 0)

/-- Day index of a date, day 0 = 0001-01-01 (a Monday); this is Python's
`date.toordinal() - 1`. -/
def dayIndex (y m d : Int) : Int :=
  365 * (y - 1) + (y - 1) / 4 - (y - 1) / 100 + (y - 1) / 400
    + daysBeforeMonth y m + (d - 1)

/-- A Python `datetime`: wall-clock microseconds since 0001-01-01T00:00:00
and an optional fixed UTC offset (`none` = naive). -/
structure Datetime where
  wall : Int
  tzoffset : Option Int
deriving DecidableEq, Repr

/-- The instant an aware datetime denotes, as UTC microseconds. -/
def Datetime.instant (d : Datetime) : Int :=
  d.wall - d.tzoffset.getD 0

/-- Python `d.astimezone(timezone.utc)`: an aware datetime is shifted by its own
offset; a naive one is interpreted in the host's local offset `loc`. -/
def astimezoneUtc (loc : Int) (d : Datetime) : Datetime :=
  ⟨d.wall - d.tzoffset.getD loc, some 0⟩

/-- Python comparison `a <= b` on datetimes: defined between two aware or
two naive values, a `TypeError` (`none`) otherwise. -/
def pyLe (a b : Datetime) : Option Bool :=
  match a.tzoffset, b.tzoffset with
  | some _, some _ => some (decide (a.instant ≤ b.instant))
  | none, none => some (decide (a.wall ≤ b.wall))
  | _, _ => none

/-! ### `datetime.fromisoformat` (pre-3.11 grammar)

`YYYY-MM-DD[*HH[:MM[:SS[.fff[fff]]]][(+|-)HH:MM[:SS[.ffffff]]]]` where `*`
is an arbitrary separator character. -/

def digitVal (c : Char) : Option Int :=
  if '0' ≤ c && c ≤ '9' then some ((c.toNat : Int) - 48) else none

def digits2 (a b : Char) : Option Int := do
  let x ← digitVal a
  let y ← digitVal b
  pure (10 * x + y)

def digits3 (a b c : Char) : Option Int := do
  let x ← digitVal a
  let y ← digitVal b
  let z ← digitVal c
  pure (100 * x + 10 * y + z)

def digits4 (a b c d : Char) : Option Int := do
  let x ← digitVal a
  let y ← digitVal b
  let z ← digitVal c
  let w ← digitVal d
  pure (1000 * x + 100 * y + 10 * z + w)

/-- Time body `HH[:MM[:SS[.fff[fff]]]]` (lengths 2, 5, 8, 12 or 15), as
(hour, minute, second, microsecond). -/
def parseHMSF : List Char → Option (Int × Int × Int × Int)
  | [a, b] => do
    pure (← digits2 a b, 0, 0, 0)
  | [a, b, c, d, e] =>
    if c = ':' then do
      pure (← digits2 a b, ← digits2 d e, 0, 0)
    else none
  | [a, b, c, d, e, f, g, h] =>
    if c = ':' && f = ':' then do
      pure (← digits2 a b, ← digits2 d e, ← digits2 g h, 0)
    else none
  | [a, b, c, d, e, f, g, h, p, x1, x2, x3] =>
    if c = ':' && f = ':' && p = '.' then do
      pure (← digits2 a b, ← digits2 d e, ← digits2 g h, 1000 * (← digits3 x1 x2 x3))
    else none
  | [a, b, c, d, e, f, g, h, p, x1, x2, x3, x4, x5, x6] =>
    if c = ':' && f = ':' && p = '.' then do
      pure (← digits2 a b, ← digits2 d e, ← digits2 g h,
        1000 * (← digits3 x1 x2 x3) + (← digits3 x4 x5 x6))
    else none
  | _ => none

/-- The time-of-day part, with its optional UTC offset. Mirrors CPython's
`_parse_isoformat_time`: the offset starts at the first `-` if any,
otherwise at the first `+`; the offset body must have length 5, 8 or 15;
`timezone` requires the offset to be strictly within a day. Returns
(microseconds into the day, optional offset in microseconds). -/
def parseIsoTime (tcs : List Char) : Option (Int × Option Int) :=
  let signIdx : Option (Nat × Int) :=
    match tcs.findIdx? (· = '-') with
    | some i => some (i, -1)
    | none =>
      match tcs.findIdx? (· = '+') with
      | some i => some (i, 1)
      | none => none
  match signIdx with
  | none => do
    let (h, m, s, us) ← parseHMSF tcs
    if h ≤ 23 && m ≤ 59 && s ≤ 59 then
      pure ((h * 3600 + m * 60 + s) * 1000000 + us, none)
    else none
  | some (i, sign) => do
    let (h, m, s, us) ← parseHMSF (tcs.take i)
    if h ≤ 23 && m ≤ 59 && s ≤ 59 then
      let tzcs := tcs.drop (i + 1)
      if tzcs.length = 5 || tzcs.length = 8 || tzcs.length = 15 then do
        let (th, tm, tsec, tus) ← parseHMSF tzcs
        let off := sign * ((th * 3600 + tm * 60 + tsec) * 1000000 + tus)
        if off.natAbs < 24 * 3600 * 1000000 then
          pure ((h * 3600 + m * 60 + s) * 1000000 + us, some off)
        else none
      else none
    else none

/-- Python `datetime.fromisoformat`: `YYYY-MM-DD`, then optionally one arbitrary
separator character and a time as in `parseIsoTime`. -/
def fromisoformatChars : List Char → Option Datetime
  | y1 :: y2 :: y3 :: y4 :: s1 :: mo1 :: mo2 :: s2 :: d1 :: d2 :: rest =>
    if s1 = '-' && s2 = '-' then do
      let y ← digits4 y1 y2 y3 y4
      let mo ← digits2 mo1 mo2
      let d ← digits2 d1 d2
      if 1 ≤ y && 1 ≤ mo && mo ≤ 12 && 1 ≤ d && d ≤ daysInMonth y mo then
        match rest with
        | [] => pure ⟨dayIndex y mo d * usecPerDay, none⟩
        | _ :: tcs => do
          let (t, tz) ← parseIsoTime tcs
          pure ⟨dayIndex y mo d * usecPerDay + t, tz⟩
      else none
    else none
  | _ => none

/-- Python `ts_str.replace('Z', '+00:00')`. -/
def replZ : List Char → List Char
  | [] => []
  | c :: cs => (if c = 'Z' then ['+', '0', '0', ':', '0', '0'] else [c]) ++ replZ cs

/-- The helper `parse_timestamp` from app.py: `None` and the empty string (both falsy)
give `None`; otherwise `'Z'` is textually replaced by `'+00:00'`, the result
is parsed with `fromisoformat`, and converted to UTC with `astimezone`; a
parse failure (`ValueError`) gives `None`. `loc` is the host's local UTC
offset, used by `astimezone` when the parsed datetime is naive. -/
def parse_timestamp (loc : Int) (ts : Option String) : Option Datetime :=
  match ts with
  | none => none
  | some s =>
    if s.data.isEmpty then none
    else (fromisoformatChars (replZ s.data)).map (astimezoneUtc loc)

/-! ### Record shapes consumed by the dashboard -/

/-- A task record as the dashboard reads it: `title` (always present in the
store), the `is_complete` flag, and the optional completion timestamp. -/
structure Task where
  title : String
  is_complete : Field Bool
  completed_at : Field String
deriving DecidableEq

/-- A focus-session record as the dashboard reads it (the query selects
`duration_minutes, created_at`). -/
structure FocusSession where
  duration_minutes : Field Int
  created_at : Field String
deriving DecidableEq

/-- A recent-activity record; the timestamp is the parsed completion
instant (UTC microseconds). -/
structure Activity where
  description : String
  timestamp : Int
deriving DecidableEq

/-! ### The dashboard computation (route `dashboard` in app.py) -/

/-- Python `today.weekday()` for `today = datetime.now(timezone.utc)` at instant
`now` (UTC microseconds since 0001-01-01, a Monday): Monday = 0. -/
def weekday (now : Int) : Int :=
  (now / usecPerDay) % 7

/-- The boundary `start_of_this_week = today - timedelta(days=today.weekday())`;
the time of day of `now` is kept, not zeroed. -/
def startOfThisWeek (now : Int) : Int :=
  now - weekday now * usecPerDay

/-- The boundary `start_of_last_week = start_of_this_week - timedelta(days=7)`. -/
def startOfLastWeek (now : Int) : Int :=
  startOfThisWeek now - 7 * usecPerDay

/-- Condition `completed_at >= start_of_this_week`. -/
def inThisWeek (now t : Int) : Bool :=
  decide (startOfThisWeek now ≤ t)

/-- Condition `start_of_last_week <= completed_at < start_of_this_week`. -/
def inLastWeek (now t : Int) : Bool :=
  decide (startOfLastWeek now ≤ t) && decide (t < startOfThisWeek now)

/-- Truthiness of `task.get('is_complete')` used as a condition. -/
def isCompleteTask (t : Task) : Bool :=
  t.is_complete.truthy

/-- The list `tasks_completed = [task for task in tasks if task.get('is_complete')]`. -/
def tasksCompleted (tasks : List Task) : List Task :=
  tasks.filter isCompleteTask

/-- One iteration of the task-bucketing loop: parse `completed_at`, then
bump the this-week or last-week counter. -/
def taskStep (loc now : Int) (acc : Nat × Nat) (task : Task) : Nat × Nat :=
  match parse_timestamp loc task.completed_at.get? with
  | some dt =>
    if inThisWeek now dt.instant then (acc.1 + 1, acc.2)
    else if inLastWeek now dt.instant then (acc.1, acc.2 + 1)
    else acc
  | none => acc

/-- The loop computing `tasks_this_week_count` and `tasks_last_week_count`. -/
def taskWeekCounts (loc now : Int) (tasks : List Task) : Nat × Nat :=
  (tasksCompleted tasks).foldl (taskStep loc now) (0, 0)

/-- The `task_percentage_change` / `focus_percentage_change` computation:
initialised to 0, overwritten by the `if`/`elif`. -/
def percentageChange (thisW lastW : Int) : Int :=
  if lastW > 0 then pyRound ((((thisW : ℚ) - (lastW : ℚ)) / (lastW : ℚ)) * 100)
  else if thisW > 0 then 100
  else 0

/-- One iteration of the focus-session loop. `duration` is
`focus_session.get('duration_minutes', 0)`; adding it to the running total
raises `TypeError` when the field was present but null. Accumulator:
(total, this-week, last-week) minutes. -/
def focusStep (loc now : Int) (acc : Int × Int × Int) (fs : FocusSession) :
    Except Unit (Int × Int × Int) :=
  match fs.duration_minutes.getD 0 with
  | none => Except.error ()
  | some duration =>
    let total := acc.1 + duration
    match parse_timestamp loc fs.created_at.get? with
    | some dt =>
      if inThisWeek now dt.instant then Except.ok (total, acc.2.1 + duration, acc.2.2)
      else if inLastWeek now dt.instant then Except.ok (total, acc.2.1, acc.2.2 + duration)
      else Except.ok (total, acc.2.1, acc.2.2)
    | none => Except.ok (total, acc.2.1, acc.2.2)

/-- The loop computing `total_focus_minutes`, `focus_this_week_min` and
`focus_last_week_min`. -/
def focusAgg (loc now : Int) (sessions : List FocusSession) :
    Except Unit (Int × Int × Int) :=
  sessions.foldlM (focusStep loc now) (0, 0, 0)

/-- Score `task_score`: completion rate scaled to 100, or 0 with no tasks. -/
def taskScore (completedCount totalTasks : Nat) : ℚ :=
  if totalTasks > 0 then ((completedCount : ℚ) / (totalTasks : ℚ)) * 100 else 0

/-- Score `focus_score = min(total_focus_hours * 5, 100)`. -/
def focusScore (totalFocusHours : ℚ) : ℚ :=
  min (totalFocusHours * 5) 100

/-- Score `productivity_score = round((task_score * 0.7) + (focus_score * 0.3))`. -/
def productivityScore (ts fs : ℚ) : ℤ :=
  pyRound (ts * (7 / 10) + fs * (3 / 10))

/-- The activity record for one completed task, when its completion
timestamp parses. -/
def activityOf (loc : Int) (t : Task) : Option Activity :=
  (parse_timestamp loc t.completed_at.get?).map
    (fun dt => ⟨"You completed task \"" ++ t.title ++ "\"", dt.instant⟩)

/-- The unsorted `recent_activities` list: one record per completed task
with a parseable `completed_at`. -/
def allActivities (loc : Int) (tasks : List Task) : List Activity :=
  (tasksCompleted tasks).filterMap (activityOf loc)

/-- The comparison realising `sort(key=lambda x: x['timestamp'], reverse=True)`:
descending by timestamp, stable on ties. -/
def activityDesc (a b : Activity) : Bool :=
  decide (b.timestamp ≤ a.timestamp)

/-- The list `recent_activities` as rendered: sorted descending, truncated to 10. -/
def recentActivities (loc : Int) (tasks : List Task) : List Activity :=
  ((allActivities loc tasks).mergeSort activityDesc).take 10

/-- Everything the dashboard derives from the fetched records. -/
structure DashboardStats where
  tasks_completed_count : Nat
  active_tasks_count : Nat
  total_tasks : Nat
  tasks_this_week_count : Nat
  tasks_last_week_count : Nat
  task_percentage_change : Int
  total_focus_minutes : Int
  focus_this_week_min : Int
  focus_last_week_min : Int
  total_focus_hours : ℚ
  focus_percentage_change : Int
  task_score : ℚ
  focus_score : ℚ
  productivity_score : Int
  recent_activities : List Activity
deriving DecidableEq

/-- The statistics block of the `dashboard` route, as a function of the
fetched `tasks` and `focus_sessions` and the instant `now`
(`datetime.now(timezone.utc)`). `Except.error` is an uncaught `TypeError`
from the focus loop. -/
def dashboard (loc now : Int) (tasks : List Task) (sessions : List FocusSession) :
    Except Unit DashboardStats :=
  match focusAgg loc now sessions with
  | Except.error e => Except.error e
  | Except.ok (totalMin, thisMin, lastMin) =>
    let completedCount := (tasksCompleted tasks).length
    let counts := taskWeekCounts loc now tasks
    let hours := pyRound1 ((totalMin : ℚ) / 60)
    let ts := taskScore completedCount tasks.length
    let fs := focusScore hours
    Except.ok
      ⟨completedCount, tasks.length - completedCount, tasks.length,
        counts.1, counts.2, percentageChange (counts.1 : Int) (counts.2 : Int),
        totalMin, thisMin, lastMin, hours,
        percentageChange thisMin lastMin, ts, fs,
        productivityScore ts fs,
        recentActivities loc tasks⟩

/-! ### Validity predicates and reference forms of the buckets -/

/-- The session's `duration_minutes` field is not a present-but-null value
(the one shape the focus loop cannot survive). -/
def validDuration : Field Int → Bool
  | .absent => true
  | .null => false
  | .val _ => true

/-- A non-negative (and non-null) duration field. -/
def nonnegDuration : Field Int → Bool
  | .absent => true
  | .null => false
  | .val v => decide (0 ≤ v)

/-- The number of minutes a session contributes: 0 when missing. -/
def durationValue : Field Int → Int
  | .val v => v
  | _ => 0

/-- Sum of the contributed durations of a session list. -/
def sumDur (ss : List FocusSession) : Int :=
  (ss.map (fun fs => durationValue fs.duration_minutes)).sum

/-- The parsed completion instant of a task, if any. -/
def taskInstant (loc : Int) (t : Task) : Option Int :=
  (parse_timestamp loc t.completed_at.get?).map Datetime.instant

/-- The task lands in the this-week bucket. -/
def taskThisWeek (loc now : Int) (t : Task) : Bool :=
  match taskInstant loc t with
  | some ti => inThisWeek now ti
  | none => false

/-- The task lands in the last-week bucket. (The loop only tests this when
the this-week test failed, but the two windows are disjoint, so the plain
window condition is equivalent.) -/
def taskLastWeek (loc now : Int) (t : Task) : Bool :=
  match taskInstant loc t with
  | some ti => inLastWeek now ti
  | none => false

/-- The parsed creation instant of a session, if any. -/
def sessionInstant (loc : Int) (fs : FocusSession) : Option Int :=
  (parse_timestamp loc fs.created_at.get?).map Datetime.instant

/-- The session lands in the this-week bucket. -/
def sessionThisWeek (loc now : Int) (fs : FocusSession) : Bool :=
  match sessionInstant loc fs with
  | some ti => inThisWeek now ti
  | none => false

/-- The session lands in the last-week bucket. -/
def sessionLastWeek (loc now : Int) (fs : FocusSession) : Bool :=
  match sessionInstant loc fs with
  | some ti => inLastWeek now ti
  | none => false

/-- Two completed tasks sharing one completion instant (a tie input for the
activity feed). -/
def tieTasks : List Task :=
  [⟨"a", Field.val true, Field.val "2024-01-08T00:00:00Z"⟩,
   ⟨"b", Field.val true, Field.val "2024-01-08T00:00:00Z"⟩]

/-! ### Helper lemmas -/

theorem ratFloor_eq (q : ℚ) : Rat.floor q = ⌊q⌋ := by
  rw [Rat.floor_def', Rat.floor_def]

theorem pyRound_le {q : ℚ} {n : ℤ} (h : q ≤ (n : ℚ)) : pyRound q ≤ n := by
  have h1 : (⌊q⌋ : ℚ) ≤ q := Int.floor_le q
  have h2 : ⌊q⌋ ≤ n := by
    have := Int.floor_le_floor (α := ℚ) h
    simpa using this
  unfold pyRound
  rw [ratFloor_eq q]
  dsimp only
  split_ifs with h3 h4 h5
  · exact h2
  · have hq : (⌊q⌋ : ℚ) < (n : ℚ) := by linarith
    have : ⌊q⌋ < n := by exact_mod_cast hq
    omega
  · exact h2
  · have hq : (⌊q⌋ : ℚ) < (n : ℚ) := by
      push_neg at h3
      linarith
    have : ⌊q⌋ < n := by exact_mod_cast hq
    omega

theorem le_pyRound {q : ℚ} {n : ℤ} (h : (n : ℚ) ≤ q) : n ≤ pyRound q := by
  have h2 : n ≤ ⌊q⌋ := Int.le_floor.mpr h
  unfold pyRound
  rw [ratFloor_eq q]
  dsimp only
  split_ifs <;> omega

theorem pyRound1_nonneg {q : ℚ} (h : 0 ≤ q) : 0 ≤ pyRound1 q := by
  unfold pyRound1
  have : (0 : ℤ) ≤ pyRound (q * 10) := le_pyRound (by push_cast; linarith)
  have : (0 : ℚ) ≤ (pyRound (q * 10) : ℚ) := by exact_mod_cast this
  linarith

theorem taskScore_nonneg (cc tot : Nat) : 0 ≤ taskScore cc tot := by
  unfold taskScore
  split_ifs
  · positivity
  · norm_num

theorem taskScore_le (cc tot : Nat) (h : cc ≤ tot) : taskScore cc tot ≤ 100 := by
  unfold taskScore
  split_ifs with hpos
  · have htot : (0 : ℚ) < (tot : ℚ) := by exact_mod_cast hpos
    have hle : (cc : ℚ) ≤ (tot : ℚ) := by exact_mod_cast h
    have : (cc : ℚ) / (tot : ℚ) ≤ 1 := (div_le_one htot).mpr hle
    linarith
  · norm_num

theorem focusScore_nonneg {h : ℚ} (hh : 0 ≤ h) : 0 ≤ focusScore h := by
  unfold focusScore
  exact le_min (by linarith) (by norm_num)

theorem focusScore_le (h : ℚ) : focusScore h ≤ 100 :=
  min_le_right _ _

theorem productivityScore_nonneg {ts fs : ℚ} (h1 : 0 ≤ ts) (h2 : 0 ≤ fs) :
    0 ≤ productivityScore ts fs := by
  unfold productivityScore
  exact le_pyRound (by push_cast; linarith)

theorem productivityScore_le {ts fs : ℚ} (h1 : ts ≤ 100) (h2 : fs ≤ 100) :
    productivityScore ts fs ≤ 100 := by
  unfold productivityScore
  exact pyRound_le (by push_cast; linarith)

theorem startOfThisWeek_le (now : Int) : startOfThisWeek now ≤ now := by
  unfold startOfThisWeek weekday
  have h1 : 0 ≤ now / usecPerDay % 7 := Int.emod_nonneg _ (by norm_num)
  have h2 : 0 ≤ now / usecPerDay % 7 * usecPerDay :=
    mul_nonneg h1 (by norm_num [usecPerDay])
  omega

theorem startOfThisWeek_timeOfDay (now : Int) :
    startOfThisWeek now % usecPerDay = now % usecPerDay := by
  unfold startOfThisWeek weekday usecPerDay
  omega

theorem inLastWeek_eq_false_of_inThisWeek {now t : Int} (h : inThisWeek now t = true) :
    inLastWeek now t = false := by
  simp only [inThisWeek, decide_eq_true_eq] at h
  simp only [inLastWeek, Bool.and_eq_false_iff, decide_eq_false_iff_not, not_le, not_lt]
  omega

theorem valid_of_nonneg {f : Field Int} (h : nonnegDuration f = true) :
    validDuration f = true := by
  cases f <;> simp_all [nonnegDuration, validDuration]

theorem durationValue_nonneg {f : Field Int} (h : nonnegDuration f = true) :
    0 ≤ durationValue f := by
  cases f <;> simp_all [nonnegDuration, durationValue]

theorem sumDur_nonneg {ss : List FocusSession}
    (h : ∀ fs ∈ ss, nonnegDuration fs.duration_minutes = true) : 0 ≤ sumDur ss := by
  unfold sumDur
  refine List.sum_nonneg ?_
  intro x hx
  rcases List.mem_map.mp hx with ⟨fs, hfs, rfl⟩
  exact durationValue_nonneg (h fs hfs)

theorem completedCount_le (tasks : List Task) :
    (tasksCompleted tasks).length ≤ tasks.length :=
  List.length_filter_le _ _

theorem exceptOkBind {α β : Type} (x : α) (f : α → Except Unit β) :
    (Except.ok x >>= f) = f x := rfl

theorem exceptPureEq {α : Type} (x : α) :
    (pure x : Except Unit α) = Except.ok x := rfl

theorem taskFold (loc now : Int) (l : List Task) : ∀ (a b : Nat),
    l.foldl (taskStep loc now) (a, b) =
      (a + (l.filter (taskThisWeek loc now)).length,
        b + (l.filter (taskLastWeek loc now)).length) := by
  induction l with
  | nil => intro a b; simp
  | cons t l ih =>
    intro a b
    rw [List.foldl_cons]
    have step : ∀ p : Nat × Nat, l.foldl (taskStep loc now) p =
        (p.1 + (l.filter (taskThisWeek loc now)).length,
          p.2 + (l.filter (taskLastWeek loc now)).length) :=
      fun p => ih p.1 p.2
    rcases hp : parse_timestamp loc t.completed_at.get? with _ | dt
    · have h1 : taskThisWeek loc now t = false := by
        simp [taskThisWeek, taskInstant, hp]
      have h2 : taskLastWeek loc now t = false := by
        simp [taskLastWeek, taskInstant, hp]
      simp only [taskStep, hp, List.filter_cons, h1, h2, Bool.false_eq_true,
        if_false, step]
    · by_cases htw : inThisWeek now dt.instant = true
      · have h1 : taskThisWeek loc now t = true := by
          simp [taskThisWeek, taskInstant, hp, htw]
        have h2 : taskLastWeek loc now t = false := by
          simp [taskLastWeek, taskInstant, hp, inLastWeek_eq_false_of_inThisWeek htw]
        simp only [taskStep, hp, htw, if_true, List.filter_cons, h1, h2, if_false,
          Bool.false_eq_true, List.length_cons, step]
        simp only [Prod.mk.injEq]
        first
        | trivial
        | omega
        | (simp only [and_true, true_and]; omega)
      · rw [Bool.not_eq_true] at htw
        have h1 : taskThisWeek loc now t = false := by
          simp [taskThisWeek, taskInstant, hp, htw]
        by_cases hlw : inLastWeek now dt.instant = true
        · have h2 : taskLastWeek loc now t = true := by
            simp [taskLastWeek, taskInstant, hp, hlw]
          simp only [taskStep, hp, htw, hlw, Bool.false_eq_true, if_false, if_true,
            List.filter_cons, h1, h2, List.length_cons, step]
          simp only [Prod.mk.injEq]
          first
          | trivial
          | omega
          | (simp only [and_true, true_and]; omega)
        · rw [Bool.not_eq_true] at hlw
          have h2 : taskLastWeek loc now t = false := by
            simp [taskLastWeek, taskInstant, hp, hlw]
          simp only [taskStep, hp, htw, hlw, Bool.false_eq_true, if_false,
            List.filter_cons, h1, h2, step]

theorem taskWeekCounts_eq (loc now : Int) (tasks : List Task) :
    taskWeekCounts loc now tasks =
      (((tasksCompleted tasks).filter (taskThisWeek loc now)).length,
        ((tasksCompleted tasks).filter (taskLastWeek loc now)).length) := by
  simpa using taskFold loc now (tasksCompleted tasks) 0 0

theorem focusFold (loc now : Int) (ss : List FocusSession) : ∀ (a b c : Int),
    (∀ fs ∈ ss, validDuration fs.duration_minutes = true) →
    ss.foldlM (focusStep loc now) (a, b, c) =
      Except.ok (a + sumDur ss,
        b + sumDur (ss.filter (sessionThisWeek loc now)),
        c + sumDur (ss.filter (sessionLastWeek loc now))) := by
  induction ss with
  | nil =>
    intro a b c _
    simp [sumDur, exceptPureEq]
  | cons fs ss ih =>
    intro a b c hval
    have hfs := hval fs (List.mem_cons_self fs ss)
    have hrest : ∀ g ∈ ss, validDuration g.duration_minutes = true :=
      fun g hg => hval g (List.mem_cons_of_mem fs hg)
    rw [List.foldlM_cons]
    have hcons : ∀ (g : FocusSession) (l : List FocusSession),
        sumDur (g :: l) = durationValue g.duration_minutes + sumDur l := by
      intro g l
      simp [sumDur]
    rcases hd : fs.duration_minutes with _ | _ | v
    · -- absent: duration defaults to 0
      have hdv : durationValue fs.duration_minutes = 0 := by rw [hd]; rfl
      rcases hpc : parse_timestamp loc fs.created_at.get? with _ | dt
      · have h1 : sessionThisWeek loc now fs = false := by
          simp [sessionThisWeek, sessionInstant, hpc]
        have h2 : sessionLastWeek loc now fs = false := by
          simp [sessionLastWeek, sessionInstant, hpc]
        simp only [focusStep, Field.getD, hd, hpc, exceptOkBind]
        rw [ih _ _ _ hrest]
        simp only [List.filter_cons, h1, h2, Bool.false_eq_true, if_false, hcons, hdv,
          Except.ok.injEq, Prod.mk.injEq]
        first
        | trivial
        | omega
        | (simp only [and_true, true_and]; omega)
      · by_cases htw : inThisWeek now dt.instant = true
        · have h1 : sessionThisWeek loc now fs = true := by
            simp [sessionThisWeek, sessionInstant, hpc, htw]
          have h2 : sessionLastWeek loc now fs = false := by
            simp [sessionLastWeek, sessionInstant, hpc,
              inLastWeek_eq_false_of_inThisWeek htw]
          simp only [focusStep, Field.getD, hd, hpc, htw, if_true, exceptOkBind]
          rw [ih _ _ _ hrest]
          simp only [List.filter_cons, h1, h2, Bool.false_eq_true, if_false, if_true,
            hcons, hdv, Except.ok.injEq, Prod.mk.injEq]
          first
          | trivial
          | omega
          | (simp only [and_true, true_and]; omega)
        · rw [Bool.not_eq_true] at htw
          have h1 : sessionThisWeek loc now fs = false := by
            simp [sessionThisWeek, sessionInstant, hpc, htw]
          by_cases hlw : inLastWeek now dt.instant = true
          · have h2 : sessionLastWeek loc now fs = true := by
              simp [sessionLastWeek, sessionInstant, hpc, hlw]
            simp only [focusStep, Field.getD, hd, hpc, htw, hlw, if_true,
              Bool.false_eq_true, if_false, exceptOkBind]
            rw [ih _ _ _ hrest]
            simp only [List.filter_cons, h1, h2, Bool.false_eq_true, if_false, if_true,
              hcons, hdv, Except.ok.injEq, Prod.mk.injEq]
            first
            | trivial
            | omega
            | (simp only [and_true, true_and]; omega)
          · rw [Bool.not_eq_true] at hlw
            have h2 : sessionLastWeek loc now fs = false := by
              simp [sessionLastWeek, sessionInstant, hpc, hlw]
            simp only [focusStep, Field.getD, hd, hpc, htw, hlw,
              Bool.false_eq_true, if_false, exceptOkBind]
            rw [ih _ _ _ hrest]
            simp only [List.filter_cons, h1, h2, Bool.false_eq_true, if_false,
              hcons, hdv, Except.ok.injEq, Prod.mk.injEq]
            first
            | trivial
            | omega
            | (simp only [and_true, true_and]; omega)
    · -- null: contradicts validity
      rw [hd] at hfs
      simp [validDuration] at hfs
    · -- value v
      have hdv : durationValue fs.duration_minutes = v := by rw [hd]; rfl
      rcases hpc : parse_timestamp loc fs.created_at.get? with _ | dt
      · have h1 : sessionThisWeek loc now fs = false := by
          simp [sessionThisWeek, sessionInstant, hpc]
        have h2 : sessionLastWeek loc now fs = false := by
          simp [sessionLastWeek, sessionInstant, hpc]
        simp only [focusStep, Field.getD, hd, hpc, exceptOkBind]
        rw [ih _ _ _ hrest]
        simp only [List.filter_cons, h1, h2, Bool.false_eq_true, if_false, hcons, hdv,
          Except.ok.injEq, Prod.mk.injEq]
        first
        | trivial
        | omega
        | (simp only [and_true, true_and]; omega)
      · by_cases htw : inThisWeek now dt.instant = true
        · have h1 : sessionThisWeek loc now fs = true := by
            simp [sessionThisWeek, sessionInstant, hpc, htw]
          have h2 : sessionLastWeek loc now fs = false := by
            simp [sessionLastWeek, sessionInstant, hpc,
              inLastWeek_eq_false_of_inThisWeek htw]
          simp only [focusStep, Field.getD, hd, hpc, htw, if_true, exceptOkBind]
          rw [ih _ _ _ hrest]
          simp only [List.filter_cons, h1, h2, Bool.false_eq_true, if_false, if_true,
            hcons, hdv, Except.ok.injEq, Prod.mk.injEq]
          first
          | trivial
          | omega
          | (simp only [and_true, true_and]; omega)
        · rw [Bool.not_eq_true] at htw
          have h1 : sessionThisWeek loc now fs = false := by
            simp [sessionThisWeek, sessionInstant, hpc, htw]
          by_cases hlw : inLastWeek now dt.instant = true
          · have h2 : sessionLastWeek loc now fs = true := by
              simp [sessionLastWeek, sessionInstant, hpc, hlw]
            simp only [focusStep, Field.getD, hd, hpc, htw, hlw, if_true,
              Bool.false_eq_true, if_false, exceptOkBind]
            rw [ih _ _ _ hrest]
            simp only [List.filter_cons, h1, h2, Bool.false_eq_true, if_false, if_true,
              hcons, hdv, Except.ok.injEq, Prod.mk.injEq]
            first
            | trivial
            | omega
            | (simp only [and_true, true_and]; omega)
          · rw [Bool.not_eq_true] at hlw
            have h2 : sessionLastWeek loc now fs = false := by
              simp [sessionLastWeek, sessionInstant, hpc, hlw]
            simp only [focusStep, Field.getD, hd, hpc, htw, hlw,
              Bool.false_eq_true, if_false, exceptOkBind]
            rw [ih _ _ _ hrest]
            simp only [List.filter_cons, h1, h2, Bool.false_eq_true, if_false,
              hcons, hdv, Except.ok.injEq, Prod.mk.injEq]
            first
            | trivial
            | omega
            | (simp only [and_true, true_and]; omega)

theorem focusAgg_eq (loc now : Int) (ss : List FocusSession)
    (hval : ∀ fs ∈ ss, validDuration fs.duration_minutes = true) :
    focusAgg loc now ss =
      Except.ok (sumDur ss,
        sumDur (ss.filter (sessionThisWeek loc now)),
        sumDur (ss.filter (sessionLastWeek loc now))) := by
  simpa using focusFold loc now ss 0 0 0 hval

/-- The dashboard computation succeeds on sessions without a null duration,
with every output field in closed form. -/
theorem dashboard_eq (loc now : Int) (tasks : List Task) (sessions : List FocusSession)
    (hval : ∀ fs ∈ sessions, validDuration fs.duration_minutes = true) :
    dashboard loc now tasks sessions =
      Except.ok
        ⟨(tasksCompleted tasks).length,
          tasks.length - (tasksCompleted tasks).length,
          tasks.length,
          ((tasksCompleted tasks).filter (taskThisWeek loc now)).length,
          ((tasksCompleted tasks).filter (taskLastWeek loc now)).length,
          percentageChange
            (((tasksCompleted tasks).filter (taskThisWeek loc now)).length : Int)
            (((tasksCompleted tasks).filter (taskLastWeek loc now)).length : Int),
          sumDur sessions,
          sumDur (sessions.filter (sessionThisWeek loc now)),
          sumDur (sessions.filter (sessionLastWeek loc now)),
          pyRound1 ((sumDur sessions : ℚ) / 60),
          percentageChange (sumDur (sessions.filter (sessionThisWeek loc now)))
            (sumDur (sessions.filter (sessionLastWeek loc now))),
          taskScore (tasksCompleted tasks).length tasks.length,
          focusScore (pyRound1 ((sumDur sessions : ℚ) / 60)),
          productivityScore (taskScore (tasksCompleted tasks).length tasks.length)
            (focusScore (pyRound1 ((sumDur sessions : ℚ) / 60))),
          recentActivities loc tasks⟩ := by
  unfold dashboard
  rw [focusAgg_eq loc now sessions hval, taskWeekCounts_eq]

/-! ### Claims -/

/-- C7: for every task list, `completed_count` is the number of tasks whose
completion flag is truthy, `total` is the list length, `active_count` is
`total - completed_count`; `active_count + completed_count = total` with
both non-negative, `completed_count ≤ total`, and `task_score ∈ [0, 100]`
whenever `total > 0`. -/
theorem claim_C7 (loc now : Int) (tasks : List Task) (sessions : List FocusSession)
    (hval : ∀ fs ∈ sessions, validDuration fs.duration_minutes = true) :
    ∃ stats, dashboard loc now tasks sessions = Except.ok stats ∧
      stats.tasks_completed_count =
        (tasks.filter (fun t => t.is_complete.truthy)).length ∧
      stats.total_tasks = tasks.length ∧
      stats.active_tasks_count = stats.total_tasks - stats.tasks_completed_count ∧
      stats.active_tasks_count + stats.tasks_completed_count = stats.total_tasks ∧
      0 ≤ (stats.active_tasks_count : ℤ) ∧ 0 ≤ (stats.tasks_completed_count : ℤ) ∧
      stats.tasks_completed_count ≤ stats.total_tasks ∧
      (0 < stats.total_tasks → 0 ≤ stats.task_score ∧ stats.task_score ≤ 100) := by
  refine ⟨_, dashboard_eq loc now tasks sessions hval, rfl, rfl, rfl, ?_, ?_, ?_, ?_, ?_⟩
  · have := completedCount_le tasks
    simp only
    omega
  · simp only [Int.natCast_nonneg]
  · simp only [Int.natCast_nonneg]
  · exact completedCount_le tasks
  · intro _
    exact ⟨taskScore_nonneg _ _, taskScore_le _ _ (completedCount_le tasks)⟩

theorem claim_C7_witness :
    ∃ stats, dashboard 0 0
        [⟨"a", Field.val true, Field.absent⟩, ⟨"b", Field.val false, Field.absent⟩]
        [] = Except.ok stats ∧
      stats.tasks_completed_count =
        ([⟨"a", Field.val true, Field.absent⟩,
          ⟨"b", Field.val false, Field.absent⟩].filter
            (fun t : Task => t.is_complete.truthy)).length ∧
      stats.total_tasks =
        ([⟨"a", Field.val true, Field.absent⟩,
          ⟨"b", Field.val false, Field.absent⟩] : List Task).length ∧
      stats.active_tasks_count = stats.total_tasks - stats.tasks_completed_count ∧
      stats.active_tasks_count + stats.tasks_completed_count = stats.total_tasks ∧
      0 ≤ (stats.active_tasks_count : ℤ) ∧ 0 ≤ (stats.tasks_completed_count : ℤ) ∧
      stats.tasks_completed_count ≤ stats.total_tasks ∧
      (0 < stats.total_tasks → 0 ≤ stats.task_score ∧ stats.task_score ≤ 100) :=
  claim_C7 0 0
    [⟨"a", Field.val true, Field.absent⟩, ⟨"b", Field.val false, Field.absent⟩]
    [] (by simp)

/-- C1: `task_score` is the completion rate scaled to 100 (0 with no
tasks), `focus_score = min(total_focus_hours * 5, 100)`,
`productivity_score = round(task_score * 0.7 + focus_score * 0.3)`, and for
valid non-negative inputs the score lies in [0, 100]. -/
theorem claim_C1 (loc now : Int) (tasks : List Task) (sessions : List FocusSession)
    (hval : ∀ fs ∈ sessions, nonnegDuration fs.duration_minutes = true) :
    ∃ stats, dashboard loc now tasks sessions = Except.ok stats ∧
      stats.task_score = (if 0 < stats.total_tasks then
        ((stats.tasks_completed_count : ℚ) / (stats.total_tasks : ℚ)) * 100 else 0) ∧
      stats.focus_score = min (stats.total_focus_hours * 5) 100 ∧
      stats.productivity_score =
        pyRound (stats.task_score * (7 / 10) + stats.focus_score * (3 / 10)) ∧
      0 ≤ stats.productivity_score ∧ stats.productivity_score ≤ 100 := by
  refine ⟨_, dashboard_eq loc now tasks sessions
    (fun fs h => valid_of_nonneg (hval fs h)), rfl, rfl, rfl, ?_, ?_⟩
  all_goals
    have hmin : 0 ≤ sumDur sessions := sumDur_nonneg hval
    have hhours : 0 ≤ pyRound1 ((sumDur sessions : ℚ) / 60) := by
      refine pyRound1_nonneg ?_
      positivity
    have hts0 : 0 ≤ taskScore (tasksCompleted tasks).length tasks.length :=
      taskScore_nonneg _ _
    have hts1 : taskScore (tasksCompleted tasks).length tasks.length ≤ 100 :=
      taskScore_le _ _ (completedCount_le tasks)
    have hfs0 : 0 ≤ focusScore (pyRound1 ((sumDur sessions : ℚ) / 60)) :=
      focusScore_nonneg hhours
    have hfs1 : focusScore (pyRound1 ((sumDur sessions : ℚ) / 60)) ≤ 100 :=
      focusScore_le _
  · exact productivityScore_nonneg hts0 hfs0
  · exact productivityScore_le hts1 hfs1

theorem claim_C1_witness :
    ∃ stats, dashboard 0 0 [⟨"a", Field.val true, Field.absent⟩]
        [⟨Field.val 90, Field.absent⟩] = Except.ok stats ∧
      stats.task_score = (if 0 < stats.total_tasks then
        ((stats.tasks_completed_count : ℚ) / (stats.total_tasks : ℚ)) * 100 else 0) ∧
      stats.focus_score = min (stats.total_focus_hours * 5) 100 ∧
      stats.productivity_score =
        pyRound (stats.task_score * (7 / 10) + stats.focus_score * (3 / 10)) ∧
      0 ≤ stats.productivity_score ∧ stats.productivity_score ≤ 100 :=
  claim_C1 0 0 [⟨"a", Field.val true, Field.absent⟩]
    [⟨Field.val 90, Field.absent⟩] (by decide)

/-- C4: with well-formed durations (each `duration_minutes` missing or an
integer), `total_focus_minutes` is the sum of the durations over all
sessions — including those whose `created_at` is missing or unparsable —
with a missing `duration_minutes` contributing 0 rather than erroring, and
`total_focus_hours = round(total_focus_minutes / 60, 1)`. -/
theorem claim_C4 (loc now : Int) (tasks : List Task) (sessions : List FocusSession)
    (hval : ∀ fs ∈ sessions, validDuration fs.duration_minutes = true) :
    ∃ stats, dashboard loc now tasks sessions = Except.ok stats ∧
      stats.total_focus_minutes =
        (sessions.map (fun fs => durationValue fs.duration_minutes)).sum ∧
      stats.total_focus_hours = pyRound1 ((stats.total_focus_minutes : ℚ) / 60) ∧
      durationValue Field.absent = 0 := by
  exact ⟨_, dashboard_eq loc now tasks sessions hval, rfl, rfl, rfl⟩

theorem claim_C4_witness :
    ∃ stats, dashboard 0 0 []
        [⟨Field.absent, Field.val "2024-01-05T00:00:00Z"⟩,
         ⟨Field.val 25, Field.val "not a timestamp"⟩] = Except.ok stats ∧
      stats.total_focus_minutes =
        ([⟨Field.absent, Field.val "2024-01-05T00:00:00Z"⟩,
          ⟨Field.val 25, Field.val "not a timestamp"⟩].map
            (fun fs : FocusSession => durationValue fs.duration_minutes)).sum ∧
      stats.total_focus_hours = pyRound1 ((stats.total_focus_minutes : ℚ) / 60) ∧
      durationValue Field.absent = 0 :=
  claim_C4 0 0 []
    [⟨Field.absent, Field.val "2024-01-05T00:00:00Z"⟩,
     ⟨Field.val 25, Field.val "not a timestamp"⟩] (by decide)

/-- C6 (counterexample): a session whose `duration_minutes` is present but
null makes the aggregation raise (`total_focus_minutes += None` is a
`TypeError`), so the aggregator does not survive every malformed record. -/
theorem claim_C6_counterexample :
    dashboard 0 0 [] [⟨Field.null, Field.absent⟩] = Except.error () := rfl

/-- C6 (amended): the aggregator never raises provided no session carries a
present-but-null `duration_minutes`; a missing duration defaults to 0, and
a record with a missing or unparsable timestamp is excluded from every
windowed calculation (and from the activity feed) while the computation
completes. -/
theorem claim_C6 (loc now : Int) (tasks : List Task) (sessions : List FocusSession)
    (hval : ∀ fs ∈ sessions, validDuration fs.duration_minutes = true) :
    (∃ stats, dashboard loc now tasks sessions = Except.ok stats) ∧
      (∀ fs : FocusSession, parse_timestamp loc fs.created_at.get? = none →
        sessionThisWeek loc now fs = false ∧ sessionLastWeek loc now fs = false) ∧
      (∀ t : Task, parse_timestamp loc t.completed_at.get? = none →
        taskThisWeek loc now t = false ∧ taskLastWeek loc now t = false ∧
          activityOf loc t = none) := by
  refine ⟨⟨_, dashboard_eq loc now tasks sessions hval⟩, ?_, ?_⟩
  · intro fs hp
    constructor
    · simp [sessionThisWeek, sessionInstant, hp]
    · simp [sessionLastWeek, sessionInstant, hp]
  · intro t hp
    refine ⟨?_, ?_, ?_⟩
    · simp [taskThisWeek, taskInstant, hp]
    · simp [taskLastWeek, taskInstant, hp]
    · simp [activityOf, hp]

theorem claim_C6_witness :
    (∃ stats, dashboard 0 0 [] [⟨Field.absent, Field.val "oops"⟩] = Except.ok stats) ∧
      (∀ fs : FocusSession, parse_timestamp 0 fs.created_at.get? = none →
        sessionThisWeek 0 0 fs = false ∧ sessionLastWeek 0 0 fs = false) ∧
      (∀ t : Task, parse_timestamp 0 t.completed_at.get? = none →
        taskThisWeek 0 0 t = false ∧ taskLastWeek 0 0 t = false ∧
          activityOf 0 t = none) :=
  claim_C6 0 0 [] [⟨Field.absent, Field.val "oops"⟩] (by decide)

theorem pyRound_intCast (n : ℤ) : pyRound ((n : ℚ)) = n := by
  unfold pyRound
  rw [ratFloor_eq]
  dsimp only
  rw [Int.floor_intCast]
  norm_num

theorem percentageChange_natCast (tw lw : Nat) :
    percentageChange (tw : Int) (lw : Int) =
      if 0 < lw then pyRound ((((tw : ℚ) - (lw : ℚ)) / (lw : ℚ)) * 100)
      else if 0 < tw then 100 else 0 := by
  unfold percentageChange
  by_cases hl : 0 < lw
  · rw [if_pos (by exact_mod_cast hl), if_pos hl]
    congr 1
  · rw [if_neg (by exact_mod_cast hl), if_neg hl]
    by_cases ht : 0 < tw
    · rw [if_pos (by exact_mod_cast ht), if_pos ht]
    · rw [if_neg (by exact_mod_cast ht), if_neg ht]

/-- C2: `task_percentage_change` is
`round(((this_week - last_week) / last_week) * 100)` when the last-week
count is positive, 100 when it is zero and the this-week count is positive,
and 0 otherwise; `focus_percentage_change` follows the same formula over
the weekly minute sums; and last week 4 with this week 2 yields -50. -/
theorem claim_C2 (loc now : Int) (tasks : List Task) (sessions : List FocusSession)
    (hval : ∀ fs ∈ sessions, nonnegDuration fs.duration_minutes = true) :
    (∃ stats, dashboard loc now tasks sessions = Except.ok stats ∧
      (stats.task_percentage_change =
        if 0 < stats.tasks_last_week_count then
          pyRound ((((stats.tasks_this_week_count : ℚ) -
            (stats.tasks_last_week_count : ℚ)) /
            (stats.tasks_last_week_count : ℚ)) * 100)
        else if 0 < stats.tasks_this_week_count then 100 else 0) ∧
      (stats.focus_percentage_change =
        if 0 < stats.focus_last_week_min then
          pyRound ((((stats.focus_this_week_min : ℚ) -
            (stats.focus_last_week_min : ℚ)) /
            (stats.focus_last_week_min : ℚ)) * 100)
        else if 0 < stats.focus_this_week_min then 100 else 0)) ∧
    percentageChange 2 4 = -50 := by
  constructor
  · refine ⟨_, dashboard_eq loc now tasks sessions
      (fun fs h => valid_of_nonneg (hval fs h)), ?_, ?_⟩
    · exact percentageChange_natCast _ _
    · rfl
  · unfold percentageChange
    rw [if_pos (by norm_num)]
    have h50 : (((2 : ℤ) : ℚ) - ((4 : ℤ) : ℚ)) / ((4 : ℤ) : ℚ) * 100 = ((-50 : ℤ) : ℚ) := by
      push_cast
      norm_num
    rw [h50, pyRound_intCast]

theorem claim_C2_witness :
    (∃ stats, dashboard 0 63840484800000000
      [⟨"t1", Field.val true, Field.val "2024-01-09T00:00:00Z"⟩,
       ⟨"t2", Field.val true, Field.val "2024-01-10T00:00:00Z"⟩,
       ⟨"t3", Field.val true, Field.val "2024-01-02T00:00:00Z"⟩,
       ⟨"t4", Field.val true, Field.val "2024-01-03T00:00:00Z"⟩,
       ⟨"t5", Field.val true, Field.val "2024-01-04T00:00:00Z"⟩,
       ⟨"t6", Field.val true, Field.val "2024-01-05T00:00:00Z"⟩] [] = Except.ok stats ∧
      (stats.task_percentage_change =
        if 0 < stats.tasks_last_week_count then
          pyRound ((((stats.tasks_this_week_count : ℚ) -
            (stats.tasks_last_week_count : ℚ)) /
            (stats.tasks_last_week_count : ℚ)) * 100)
        else if 0 < stats.tasks_this_week_count then 100 else 0) ∧
      (stats.focus_percentage_change =
        if 0 < stats.focus_last_week_min then
          pyRound ((((stats.focus_this_week_min : ℚ) -
            (stats.focus_last_week_min : ℚ)) /
            (stats.focus_last_week_min : ℚ)) * 100)
        else if 0 < stats.focus_this_week_min then 100 else 0)) ∧
    percentageChange 2 4 = -50 :=
  claim_C2 0 63840484800000000
    [⟨"t1", Field.val true, Field.val "2024-01-09T00:00:00Z"⟩,
     ⟨"t2", Field.val true, Field.val "2024-01-10T00:00:00Z"⟩,
     ⟨"t3", Field.val true, Field.val "2024-01-02T00:00:00Z"⟩,
     ⟨"t4", Field.val true, Field.val "2024-01-03T00:00:00Z"⟩,
     ⟨"t5", Field.val true, Field.val "2024-01-04T00:00:00Z"⟩,
     ⟨"t6", Field.val true, Field.val "2024-01-05T00:00:00Z"⟩] [] (by decide)

/-- C3: `start_of_this_week` is `now` minus the weekday index (Monday = 0,
and 2024-01-01, a Monday, has weekday 0) in whole days, keeping the
time of day of `now`; `start_of_last_week` is 7 days earlier; a record
falls in this week iff its parsed instant is `≥ start_of_this_week`, in
last week iff it lies in `[start_of_last_week, start_of_this_week)`, and
otherwise in neither window while still counting in the lifetime totals. -/
theorem claim_C3 (loc now : Int) (tasks : List Task) (sessions : List FocusSession)
    (hval : ∀ fs ∈ sessions, validDuration fs.duration_minutes = true) :
    startOfThisWeek now = now - weekday now * usecPerDay ∧
    0 ≤ weekday now ∧ weekday now < 7 ∧
    weekday (dayIndex 2024 1 1 * usecPerDay) = 0 ∧
    startOfThisWeek now % usecPerDay = now % usecPerDay ∧
    startOfLastWeek now = startOfThisWeek now - 7 * usecPerDay ∧
    (∀ t : Task, taskThisWeek loc now t = true ↔
      ∃ ti, taskInstant loc t = some ti ∧ startOfThisWeek now ≤ ti) ∧
    (∀ t : Task, taskLastWeek loc now t = true ↔
      ∃ ti, taskInstant loc t = some ti ∧ startOfLastWeek now ≤ ti ∧
        ti < startOfThisWeek now) ∧
    (∀ fs : FocusSession, sessionThisWeek loc now fs = true ↔
      ∃ ti, sessionInstant loc fs = some ti ∧ startOfThisWeek now ≤ ti) ∧
    (∀ fs : FocusSession, sessionLastWeek loc now fs = true ↔
      ∃ ti, sessionInstant loc fs = some ti ∧ startOfLastWeek now ≤ ti ∧
        ti < startOfThisWeek now) ∧
    (∃ stats, dashboard loc now tasks sessions = Except.ok stats ∧
      stats.tasks_this_week_count =
        ((tasksCompleted tasks).filter (taskThisWeek loc now)).length ∧
      stats.tasks_last_week_count =
        ((tasksCompleted tasks).filter (taskLastWeek loc now)).length ∧
      stats.focus_this_week_min =
        sumDur (sessions.filter (sessionThisWeek loc now)) ∧
      stats.focus_last_week_min =
        sumDur (sessions.filter (sessionLastWeek loc now)) ∧
      stats.tasks_completed_count = (tasksCompleted tasks).length ∧
      stats.total_focus_minutes = sumDur sessions) := by
  have hwd0 : 0 ≤ weekday now := Int.emod_nonneg _ (by norm_num)
  have hwd7 : weekday now < 7 := Int.emod_lt_of_pos _ (by norm_num)
  refine ⟨rfl, hwd0, hwd7, by decide, startOfThisWeek_timeOfDay now, rfl,
    ?_, ?_, ?_, ?_,
    ⟨_, dashboard_eq loc now tasks sessions hval, rfl, rfl, rfl, rfl, rfl, rfl⟩⟩
  · intro t
    unfold taskThisWeek
    rcases hti : taskInstant loc t with _ | ti <;>
      simp [hti, inThisWeek]
  · intro t
    unfold taskLastWeek
    rcases hti : taskInstant loc t with _ | ti <;>
      simp [hti, inLastWeek, and_assoc]
  · intro fs
    unfold sessionThisWeek
    rcases hti : sessionInstant loc fs with _ | ti <;>
      simp [hti, inThisWeek]
  · intro fs
    unfold sessionLastWeek
    rcases hti : sessionInstant loc fs with _ | ti <;>
      simp [hti, inLastWeek, and_assoc]

theorem claim_C3_witness :
    startOfThisWeek 63840484800000000 =
      63840484800000000 - weekday 63840484800000000 * usecPerDay ∧
    0 ≤ weekday 63840484800000000 ∧ weekday 63840484800000000 < 7 ∧
    weekday (dayIndex 2024 1 1 * usecPerDay) = 0 ∧
    startOfThisWeek 63840484800000000 % usecPerDay = 63840484800000000 % usecPerDay ∧
    startOfLastWeek 63840484800000000 =
      startOfThisWeek 63840484800000000 - 7 * usecPerDay ∧
    (∀ t : Task, taskThisWeek 0 63840484800000000 t = true ↔
      ∃ ti, taskInstant 0 t = some ti ∧ startOfThisWeek 63840484800000000 ≤ ti) ∧
    (∀ t : Task, taskLastWeek 0 63840484800000000 t = true ↔
      ∃ ti, taskInstant 0 t = some ti ∧ startOfLastWeek 63840484800000000 ≤ ti ∧
        ti < startOfThisWeek 63840484800000000) ∧
    (∀ fs : FocusSession, sessionThisWeek 0 63840484800000000 fs = true ↔
      ∃ ti, sessionInstant 0 fs = some ti ∧ startOfThisWeek 63840484800000000 ≤ ti) ∧
    (∀ fs : FocusSession, sessionLastWeek 0 63840484800000000 fs = true ↔
      ∃ ti, sessionInstant 0 fs = some ti ∧ startOfLastWeek 63840484800000000 ≤ ti ∧
        ti < startOfThisWeek 63840484800000000) ∧
    (∃ stats, dashboard 0 63840484800000000
        [⟨"t1", Field.val true, Field.val "2024-01-09T00:00:00Z"⟩]
        [⟨Field.val 30, Field.val "2023-12-25T00:00:00Z"⟩] = Except.ok stats ∧
      stats.tasks_this_week_count =
        ((tasksCompleted [⟨"t1", Field.val true, Field.val "2024-01-09T00:00:00Z"⟩]).filter
          (taskThisWeek 0 63840484800000000)).length ∧
      stats.tasks_last_week_count =
        ((tasksCompleted [⟨"t1", Field.val true, Field.val "2024-01-09T00:00:00Z"⟩]).filter
          (taskLastWeek 0 63840484800000000)).length ∧
      stats.focus_this_week_min =
        sumDur ([⟨Field.val 30, Field.val "2023-12-25T00:00:00Z"⟩].filter
          (sessionThisWeek 0 63840484800000000)) ∧
      stats.focus_last_week_min =
        sumDur ([⟨Field.val 30, Field.val "2023-12-25T00:00:00Z"⟩].filter
          (sessionLastWeek 0 63840484800000000)) ∧
      stats.tasks_completed_count =
        (tasksCompleted [⟨"t1", Field.val true, Field.val "2024-01-09T00:00:00Z"⟩]).length ∧
      stats.total_focus_minutes =
        sumDur [⟨Field.val 30, Field.val "2023-12-25T00:00:00Z"⟩]) :=
  claim_C3 0 63840484800000000
    [⟨"t1", Field.val true, Field.val "2024-01-09T00:00:00Z"⟩]
    [⟨Field.val 30, Field.val "2023-12-25T00:00:00Z"⟩] (by decide)

/-- C10: the this-week window has no upper bound: any record whose parsed
timestamp is strictly later than `now` satisfies the this-week condition
(`t ≥ start_of_this_week`), and the this-week counters are exactly the
counts/sums over that condition — so a future-dated record is counted
rather than excluded. -/
theorem claim_C10 (loc now : Int) (tasks : List Task) (sessions : List FocusSession)
    (hval : ∀ fs ∈ sessions, validDuration fs.duration_minutes = true) :
    ∃ stats, dashboard loc now tasks sessions = Except.ok stats ∧
      stats.tasks_this_week_count =
        ((tasksCompleted tasks).filter (taskThisWeek loc now)).length ∧
      stats.focus_this_week_min =
        sumDur (sessions.filter (sessionThisWeek loc now)) ∧
      (∀ t : Task, ∀ ti, taskInstant loc t = some ti → now < ti →
        taskThisWeek loc now t = true) ∧
      (∀ fs : FocusSession, ∀ ti, sessionInstant loc fs = some ti → now < ti →
        sessionThisWeek loc now fs = true) := by
  refine ⟨_, dashboard_eq loc now tasks sessions hval, rfl, rfl, ?_, ?_⟩
  · intro t ti hti hfut
    unfold taskThisWeek
    rw [hti]
    simp only [inThisWeek, decide_eq_true_eq]
    exact le_of_lt (lt_of_le_of_lt (startOfThisWeek_le now) hfut)
  · intro fs ti hti hfut
    unfold sessionThisWeek
    rw [hti]
    simp only [inThisWeek, decide_eq_true_eq]
    exact le_of_lt (lt_of_le_of_lt (startOfThisWeek_le now) hfut)

theorem claim_C10_witness :
    ∃ stats, dashboard 0 63840484800000000
        [⟨"future", Field.val true, Field.val "2030-06-01T00:00:00Z"⟩]
        [⟨Field.val 45, Field.val "2030-06-01T00:00:00Z"⟩] = Except.ok stats ∧
      stats.tasks_this_week_count =
        ((tasksCompleted [⟨"future", Field.val true, Field.val "2030-06-01T00:00:00Z"⟩]).filter
          (taskThisWeek 0 63840484800000000)).length ∧
      stats.focus_this_week_min =
        sumDur ([⟨Field.val 45, Field.val "2030-06-01T00:00:00Z"⟩].filter
          (sessionThisWeek 0 63840484800000000)) ∧
      (∀ t : Task, ∀ ti, taskInstant 0 t = some ti → 63840484800000000 < ti →
        taskThisWeek 0 63840484800000000 t = true) ∧
      (∀ fs : FocusSession, ∀ ti, sessionInstant 0 fs = some ti →
        63840484800000000 < ti → sessionThisWeek 0 63840484800000000 fs = true) :=
  claim_C10 0 63840484800000000
    [⟨"future", Field.val true, Field.val "2030-06-01T00:00:00Z"⟩]
    [⟨Field.val 45, Field.val "2030-06-01T00:00:00Z"⟩] (by decide)

theorem activityDesc_trans (a b c : Activity) (h1 : activityDesc a b = true)
    (h2 : activityDesc b c = true) : activityDesc a c = true := by
  simp only [activityDesc, decide_eq_true_eq] at *
  omega

theorem activityDesc_total (a b : Activity) :
    (activityDesc a b || activityDesc b a) = true := by
  simp only [activityDesc, Bool.or_eq_true, decide_eq_true_eq]
  omega

/-- C5 (counterexample): with two tasks completed at the same instant the
feed holds two records with equal timestamps, so it is not strictly
descending. -/
theorem claim_C5_counterexample :
    ¬ List.Pairwise (fun a b : Activity => b.timestamp < a.timestamp)
      (recentActivities 0 tieTasks) := by
  intro hstrict
  have hall : allActivities 0 tieTasks =
      [⟨"You completed task \"a\"", 63840268800000000⟩,
       ⟨"You completed task \"b\"", 63840268800000000⟩] := by decide
  have hperm := List.mergeSort_perm (allActivities 0 tieTasks) activityDesc
  have hlen : ((allActivities 0 tieTasks).mergeSort activityDesc).length = 2 := by
    rw [hperm.length_eq, hall]
    rfl
  have htake : recentActivities 0 tieTasks =
      (allActivities 0 tieTasks).mergeSort activityDesc := by
    unfold recentActivities
    exact List.take_of_length_le (by omega)
  rw [htake] at hstrict
  have hmem : ∀ x ∈ (allActivities 0 tieTasks).mergeSort activityDesc,
      x.timestamp = 63840268800000000 := by
    intro x hx
    have hx2 : x ∈ allActivities 0 tieTasks := hperm.mem_iff.mp hx
    rw [hall] at hx2
    rcases List.mem_cons.mp hx2 with rfl | hx3
    · rfl
    · rcases List.mem_cons.mp hx3 with rfl | hx4
      · rfl
      · cases hx4
  obtain ⟨u, v, huv⟩ :=
    List.length_eq_two.mp hlen
  rw [huv] at hstrict hmem
  have h1 := hmem u (by simp)
  have h2 := hmem v (by simp)
  have h3 := (List.pairwise_cons.mp hstrict).1 v (by simp)
  rw [h1, h2] at h3
  exact lt_irrefl _ h3

/-- C5 (amended): the feed is the 10-record truncation of the activity
records sorted in non-increasing (descending with ties adjacent, not
strictly descending) timestamp order; it has length at most 10, one record
per completed task with a parseable completion timestamp (others omitted),
and every kept record is at least as recent as every dropped one. -/
theorem claim_C5 (loc : Int) (tasks : List Task) :
    recentActivities loc tasks =
      ((allActivities loc tasks).mergeSort activityDesc).take 10 ∧
    (recentActivities loc tasks).length ≤ 10 ∧
    List.Pairwise (fun a b : Activity => b.timestamp ≤ a.timestamp)
      (recentActivities loc tasks) ∧
    (∀ a : Activity, a ∈ allActivities loc tasks ↔
      ∃ t ∈ tasksCompleted tasks, activityOf loc t = some a) ∧
    ((allActivities loc tasks).mergeSort activityDesc).Perm
      (allActivities loc tasks) ∧
    (∀ a ∈ recentActivities loc tasks,
      ∀ b ∈ ((allActivities loc tasks).mergeSort activityDesc).drop 10,
        b.timestamp ≤ a.timestamp) := by
  have hsorted := List.sorted_mergeSort activityDesc_trans activityDesc_total
    (allActivities loc tasks)
  have hsorted' : List.Pairwise (fun a b : Activity => b.timestamp ≤ a.timestamp)
      ((allActivities loc tasks).mergeSort activityDesc) := by
    refine hsorted.imp ?_
    intro a b h
    simpa [activityDesc] using h
  refine ⟨rfl, List.length_take_le _ _, ?_, ?_, List.mergeSort_perm _ _, ?_⟩
  · exact List.Pairwise.sublist (List.take_sublist _ _) hsorted'
  · intro a
    unfold allActivities
    exact List.mem_filterMap
  · intro a ha b hb
    have hsplit := hsorted'
    rw [← List.take_append_drop 10
      ((allActivities loc tasks).mergeSort activityDesc)] at hsplit
    exact (List.pairwise_append.mp hsplit).2.2 a ha b hb

theorem claim_C5_witness :
    recentActivities 0 tieTasks =
      ((allActivities 0 tieTasks).mergeSort activityDesc).take 10 ∧
    (recentActivities 0 tieTasks).length ≤ 10 ∧
    List.Pairwise (fun a b : Activity => b.timestamp ≤ a.timestamp)
      (recentActivities 0 tieTasks) ∧
    (∀ a : Activity, a ∈ allActivities 0 tieTasks ↔
      ∃ t ∈ tasksCompleted tieTasks, activityOf 0 t = some a) ∧
    ((allActivities 0 tieTasks).mergeSort activityDesc).Perm
      (allActivities 0 tieTasks) ∧
    (∀ a ∈ recentActivities 0 tieTasks,
      ∀ b ∈ ((allActivities 0 tieTasks).mergeSort activityDesc).drop 10,
        b.timestamp ≤ a.timestamp) :=
  claim_C5 0 tieTasks

theorem replZ_append (l₁ l₂ : List Char) :
    replZ (l₁ ++ l₂) = replZ l₁ ++ replZ l₂ := by
  induction l₁ with
  | nil => rfl
  | cons c cs ih =>
    simp only [List.cons_append, replZ]
    rw [List.append_assoc]
    congr 1

theorem replZ_of_not_mem : ∀ {l : List Char}, 'Z' ∉ l → replZ l = l := by
  intro l h
  induction l with
  | nil => rfl
  | cons c cs ih =>
    rw [List.mem_cons, not_or] at h
    rw [replZ, if_neg (fun hc => h.1 hc.symm), ih h.2]
    rfl

/-- C8: the trailing literal `Z` is equivalent to `+00:00`: for any
timestamp body with no `Z` in it (every ISO-8601 body without an offset
qualifies, its characters being digits, `-`, `:`, `.`, `T` or space),
appending `Z` parses identically to appending `+00:00`; in particular the
two spellings of 2024-01-01T00:00:00 UTC agree and parse to a value, while
`None`, the empty string and a malformed string parse to no value. -/
theorem claim_C8 :
    (∀ (loc : Int) (s : String), 'Z' ∉ s.data →
      parse_timestamp loc (some (s ++ "Z")) =
        parse_timestamp loc (some (s ++ "+00:00"))) ∧
    parse_timestamp 0 (some "2024-01-01T00:00:00Z") =
      parse_timestamp 0 (some "2024-01-01T00:00:00+00:00") ∧
    parse_timestamp 0 (some "2024-01-01T00:00:00Z") =
      some ⟨63839664000000000, some 0⟩ ∧
    parse_timestamp 0 none = none ∧
    parse_timestamp 0 (some "") = none ∧
    parse_timestamp 0 (some "not-a-timestamp") = none := by
  refine ⟨?_, by decide, by decide, rfl, by decide, by decide⟩
  intro loc s hZ
  have hd1 : (s ++ "Z").data = s.data ++ ['Z'] := by
    rw [String.data_append]
  have hd2 : (s ++ "+00:00").data = s.data ++ ['+', '0', '0', ':', '0', '0'] := by
    rw [String.data_append]
  have hr1 : replZ ((s ++ "Z").data) = s.data ++ ['+', '0', '0', ':', '0', '0'] := by
    rw [hd1, replZ_append, replZ_of_not_mem hZ]
    rfl
  have hr2 : replZ ((s ++ "+00:00").data) =
      s.data ++ ['+', '0', '0', ':', '0', '0'] := by
    rw [hd2, replZ_append, replZ_of_not_mem hZ]
    rfl
  have he1 : (s ++ "Z").data.isEmpty = false := by
    rw [hd1]
    rcases s.data with _ | _ <;> rfl
  have he2 : (s ++ "+00:00").data.isEmpty = false := by
    rw [hd2]
    rcases s.data with _ | _ <;> rfl
  simp only [parse_timestamp, he1, he2, Bool.false_eq_true, if_false, hr1, hr2]

theorem claim_C8_witness :
    parse_timestamp 5 (some ("2024-03-04T05:06:07" ++ "Z")) =
      parse_timestamp 5 (some ("2024-03-04T05:06:07" ++ "+00:00")) :=
  claim_C8.1 5 "2024-03-04T05:06:07" (by decide)

/-- C9: on a `None` or string input, `parse_timestamp` yields either no
value or an aware datetime whose offset is UTC (`astimezone(timezone.utc)`
normalises both aware and naive parses), so every parsed timestamp compares
without a `TypeError` against the timezone-aware window boundaries. -/
theorem claim_C9 (loc : Int) (ts : Option String) :
    parse_timestamp loc ts = none ∨
    ∃ d, parse_timestamp loc ts = some d ∧ d.tzoffset = some 0 ∧
      ∀ b : Datetime, b.tzoffset.isSome = true →
        (pyLe d b).isSome = true ∧ (pyLe b d).isSome = true := by
  rcases ts with _ | s
  · exact Or.inl rfl
  · rcases he : s.data.isEmpty with _ | _
    · rcases hf : fromisoformatChars (replZ s.data) with _ | d0
      · refine Or.inl ?_
        simp [parse_timestamp, he, hf]
      · refine Or.inr ⟨astimezoneUtc loc d0, ?_, rfl, ?_⟩
        · simp [parse_timestamp, he, hf]
        · intro b hb
          rcases hbt : b.tzoffset with _ | o
          · rw [hbt] at hb
            cases hb
          · constructor <;> simp [pyLe, astimezoneUtc, hbt]
    · refine Or.inl ?_
      simp [parse_timestamp, he]

theorem claim_C9_witness :
    parse_timestamp 0 (some "2024-01-01T00:00:00Z") = none ∨
    ∃ d, parse_timestamp 0 (some "2024-01-01T00:00:00Z") = some d ∧
      d.tzoffset = some 0 ∧
      ∀ b : Datetime, b.tzoffset.isSome = true →
        (pyLe d b).isSome = true ∧ (pyLe b d).isSome = true :=
  claim_C9 0 (some "2024-01-01T00:00:00Z")

end EXTERES
